import Mathlib

/- Shallow embedding of `src/Algorithm.Framework/Selection/OptionUniverseSelectionModel.py`
(QuantConnect LEAN, Python). The module is a periodic option-chain universe-selection
policy: `CreateUniverses` (refresh) advances the next-refresh timestamp, invokes a
caller-supplied symbol selector, de-duplicates by underlying, and builds one
`OptionChainUniverse` per first-seen underlying via `CreateOptionChain`.

Python generator semantics are embedded eagerly: the lazily yielded sequence becomes a
list of the universes yielded before any raised error, paired with an optional error.
Host-engine state mutations performed on a security (`SetFilter`, `IsTradable = False`)
and host log calls are recorded as an explicit event trace so that ordering and
frame claims can be stated. Timestamps are naturals counting microseconds, as in
CPython's `datetime`; `datetime.date()` truncates to a day boundary. -/

namespace OptionUniverseSelection

/-- Microseconds per day, the resolution of CPython `datetime` arithmetic. -/
def usPerDay : Nat := 86400000000

/-- Python `datetime.date()`: truncate a timestamp to its day boundary,
discarding the time-of-day component. -/
def dateOf (t : Nat) : Nat := (t / usPerDay) * usPerDay

/-- `QuantConnect.SecurityType` (the security-type tags used by the module:
Option, and non-option tags such as Equity and Future). -/
inductive SecurityType
  | Option
  | Equity
  | Future
deriving DecidableEq, Repr

/-- The underlying instrument referenced by `symbol.Underlying`: its display value
(`.Value`) and market. -/
structure UnderlyingSymbol where
  value : String
  market : String
deriving DecidableEq, Repr

/-- A `QuantConnect.Symbol` as used by the module: display value (`.Value`),
security type (`.SecurityType`), market (`.ID.Market`), underlying reference
(`.Underlying`, consulted only for option symbols) and canonicity (`.IsCanonical()`). -/
structure Symbol where
  value : String
  securityType : SecurityType
  market : String
  underlying : UnderlyingSymbol
  isCanonical : Bool
deriving DecidableEq, Repr

/-- Modelled from the spec: the host engine's `Symbol.Create` factory
(QuantConnect.Common, not under src/). Called as
`Symbol.Create(underlying.Value, SecurityType.Option, market, alias)` it produces the
canonical option-chain symbol for the given underlying ticker on the given market,
whose textual display value is the supplied alias (the spec: a canonical alias derived
from the underlying's display value, e.g. prefix `?` + underlying text, and market). -/
def Symbol.Create (ticker : String) (securityType : SecurityType) (market : String)
    (aliasStr : String) : Symbol :=
  { value := aliasStr
    securityType := securityType
    market := market
    underlying := { value := ticker, market := market }
    isCanonical := true }

/-- `UniverseSettings`: the configuration bundle passed through verbatim. -/
structure UniverseSettings where
  resolution : Nat
  fillForward : Bool
  leverage : Nat
  extendedMarketHours : Bool
deriving DecidableEq, Repr

/-- An opaque security-initializer object, identified by a tag. -/
structure Initializer where
  tag : Nat
deriving DecidableEq, Repr

/-- The filter-specification value received and returned by `Filter`
(the host's option filter universe). -/
structure OptionFilterUniverse where
  contracts : List Symbol
deriving DecidableEq, Repr

/-- The type of contract filter functions attachable to a chain security. -/
abbrev ContractFilter := OptionFilterUniverse → OptionFilterUniverse

/-- Provenance tag distinguishing securities that live in the host registry from
securities freshly constructed by the host factory during this call. -/
inductive SecuritySource
  | registry (tag : Nat)
  | factory
deriving DecidableEq, Repr

/-- A host `Security` object as seen by this module: its registry key (`.Key` when
iterating `algorithm.Securities`), provenance, attached contract filter
(`SetFilter`) and tradability flag (`IsTradable`). -/
structure Security where
  key : Symbol
  source : SecuritySource
  contractFilter : Option ContractFilter
  isTradable : Bool

/-- The host algorithm context read by the module: clock (`UtcTime`), the security
registry (`Securities`, entries keyed by `.Key`), process-wide default universe
settings and security initializer, and the live-mode flag. -/
structure Algorithm where
  utcTime : Nat
  securities : List Security
  universeSettings : UniverseSettings
  securityInitializer : Initializer
  liveMode : Bool

/-- Host-visible effects performed while building one chain, in program order:
log calls, construction of a fresh security by the factory, `SetFilter`, and the
`IsTradable` assignment. -/
inductive Event
  | logCreatingChain (t : Nat) (s : Symbol)
  | logResolvedExisting (t : Nat) (s : Symbol)
  | logCreatingChainSecurity (t : Nat) (s : Symbol)
  | createdSecurity (key : Symbol)
  | setFilterOn (key : Symbol)
  | setIsTradable (key : Symbol) (b : Bool)

/-- The two `ValueError`s raised by the module: line 53 (selector returned a
non-option symbol) and line 62 (`CreateOptionChain` requires an option symbol). -/
inductive ValueErrorKind
  | invalidSelectorOutput
  | invalidSymbolKind
deriving DecidableEq, Repr

/-- `OptionChainUniverse(optionChain, settings, initializer, liveMode)` (line 91). -/
structure OptionChainUniverse where
  security : Security
  settings : UniverseSettings
  initializer : Initializer
  liveMode : Bool

/-- The policy object's fields, as assigned in `__init__` (lines 35-40). -/
structure OptionUniverseSelectionModel where
  nextRefreshTimeUtc : Nat
  refreshInterval : Nat
  optionChainSymbolSelector : Nat → List Symbol
  universeSettings : Option UniverseSettings
  securityInitializer : Option Initializer

/-- `__init__` (lines 29-40): `nextRefreshTimeUtc` starts at `datetime.min`
(embedded as 0); the four configuration fields are stored as given. -/
def OptionUniverseSelectionModel.create (refreshInterval : Nat)
    (optionChainSymbolSelector : Nat → List Symbol)
    (universeSettings : Option UniverseSettings)
    (securityInitializer : Option Initializer) : OptionUniverseSelectionModel :=
  { nextRefreshTimeUtc := 0
    refreshInterval := refreshInterval
    optionChainSymbolSelector := optionChainSymbolSelector
    universeSettings := universeSettings
    securityInitializer := securityInitializer }

/-- `GetNextRefreshTimeUtc` (lines 42-43): pure accessor. -/
def OptionUniverseSelectionModel.GetNextRefreshTimeUtc
    (m : OptionUniverseSelectionModel) : Nat :=
  m.nextRefreshTimeUtc

/-- `Filter` (lines 108-111): the option chain universe filter, a no-op returning
its argument. -/
def OptionUniverseSelectionModel.Filter (filter : OptionFilterUniverse) :
    OptionFilterUniverse :=
  filter

/-- Modelled from the spec: the host factory `SecurityManager.CreateSecurity`
(QuantConnect.Common, not under src/). Constructs a new chain-placeholder security
keyed by the given symbol; pure delegation with no independent logic. The fresh
object carries provenance `factory`, no contract filter attached yet, and the host
default tradability (tradable) before this module post-configures it. -/
def SecurityManager.CreateSecurity (symbol : Symbol) (settings : UniverseSettings)
    (initializer : Initializer) (liveMode : Bool) : Security :=
  { key := symbol
    source := SecuritySource.factory
    contractFilter := none
    isTradable := true }

/-- `CreateOptionChainSecurity` (lines 93-106): logs, looks up host reference data
(market hours, symbol properties; out of scope) and delegates to the host factory.
The returned trace records the log call and the construction of the fresh security. -/
def OptionUniverseSelectionModel.CreateOptionChainSecurity (alg : Algorithm)
    (symbol : Symbol) (settings : UniverseSettings) (initializer : Initializer) :
    Security × List Event :=
  (SecurityManager.CreateSecurity symbol settings initializer alg.liveMode,
    [Event.logCreatingChainSecurity alg.utcTime symbol, Event.createdSecurity symbol])

/-- Lines 66-71 of `CreateOptionChain`: rewrite a non-canonical symbol to the
canonical alias `"?" + underlying.Value` on the symbol's market via `Symbol.Create`;
an already-canonical symbol is used as-is. -/
def canonicalOf (symbol : Symbol) : Symbol :=
  if !symbol.isCanonical then
    Symbol.Create symbol.underlying.value SecurityType.Option symbol.market
      ("?" ++ symbol.underlying.value)
  else symbol

/-- Line 74: `settings = self.universeSettings if self.universeSettings is not None
else algorithm.UniverseSettings`. -/
def OptionUniverseSelectionModel.resolvedSettings (m : OptionUniverseSelectionModel)
    (alg : Algorithm) : UniverseSettings :=
  match m.universeSettings with
  | some s => s
  | none => alg.universeSettings

/-- Line 75: `initializer = self.securityInitializer if self.securityInitializer is
not None else algorithm.SecurityInitializer`. -/
def OptionUniverseSelectionModel.resolvedInitializer (m : OptionUniverseSelectionModel)
    (alg : Algorithm) : Initializer :=
  match m.securityInitializer with
  | some i => i
  | none => alg.securityInitializer

/-- The body of `CreateOptionChain` after the option-type guard (lines 64-91):
log, canonicalize, resolve the effective settings and initializer, look up the
registry (`[s for s in algorithm.Securities if s.Key == symbol]`, reuse the first
match, otherwise build via `CreateOptionChainSecurity`), then attach the contract
filter (`SetFilter(self.Filter)`, line 86) and afterwards force
`IsTradable = False` (line 89), and wrap in an `OptionChainUniverse` (line 91). -/
def OptionUniverseSelectionModel.createOptionChainBody
    (m : OptionUniverseSelectionModel) (alg : Algorithm) (symbol0 : Symbol) :
    OptionChainUniverse × List Event :=
  let symbol := canonicalOf symbol0
  let settings := m.resolvedSettings alg
  let initializer := m.resolvedInitializer alg
  let securities := alg.securities.filter (fun s => decide (s.key = symbol))
  let resolved : Security × List Event :=
    match securities with
    | [] => OptionUniverseSelectionModel.CreateOptionChainSecurity alg symbol
        settings initializer
    | s :: _ => (s, [Event.logResolvedExisting alg.utcTime symbol])
  let optionChain := { resolved.1 with
    contractFilter := some OptionUniverseSelectionModel.Filter }
  let optionChain := { optionChain with isTradable := false }
  ({ security := optionChain
     settings := settings
     initializer := initializer
     liveMode := alg.liveMode },
    Event.logCreatingChain alg.utcTime symbol0 :: resolved.2
      ++ [Event.setFilterOn optionChain.key, Event.setIsTradable optionChain.key false])

/-- `CreateOptionChain` (lines 60-91): raise `ValueError` ("CreateOptionChain
requires an option symbol", embedded as `invalidSymbolKind`) if the symbol is not an
option, before performing any other work; otherwise run the body. -/
def OptionUniverseSelectionModel.CreateOptionChain (m : OptionUniverseSelectionModel)
    (alg : Algorithm) (symbol : Symbol) :
    Except ValueErrorKind (OptionChainUniverse × List Event) :=
  if symbol.securityType ≠ SecurityType.Option then
    Except.error ValueErrorKind.invalidSymbolKind
  else
    Except.ok (m.createOptionChainBody alg symbol)

/-- The universe produced by a successful `CreateOptionChain`. -/
def OptionUniverseSelectionModel.builtUniverse (m : OptionUniverseSelectionModel)
    (alg : Algorithm) (s : Symbol) : OptionChainUniverse :=
  (m.createOptionChainBody alg s).1

/-- The event trace of a successful `CreateOptionChain`. -/
def OptionUniverseSelectionModel.chainEvents (m : OptionUniverseSelectionModel)
    (alg : Algorithm) (s : Symbol) : List Event :=
  (m.createOptionChainBody alg s).2

/-- The generator loop of `CreateUniverses` (lines 50-58): walk the selector output
with the `uniqueUnderlyingSymbols` seen-set; raise `ValueError`
("optionChainSymbolSelector must return option symbols", embedded as
`invalidSelectorOutput`) on a non-option symbol; skip already-seen underlyings;
otherwise record the underlying and yield `CreateOptionChain`'s universe. The
result is the list of universes yielded before any error, plus the error if one
was raised. -/
def OptionUniverseSelectionModel.universesFrom (m : OptionUniverseSelectionModel)
    (alg : Algorithm) :
    List Symbol → List UnderlyingSymbol → List OptionChainUniverse × Option ValueErrorKind
  | [], _ => ([], none)
  | optionSymbol :: rest, seen =>
    if optionSymbol.securityType ≠ SecurityType.Option then
      ([], some ValueErrorKind.invalidSelectorOutput)
    else if optionSymbol.underlying ∈ seen then
      OptionUniverseSelectionModel.universesFrom m alg rest seen
    else
      match m.CreateOptionChain alg optionSymbol with
      | Except.error e => ([], some e)
      | Except.ok (u, _) =>
        let next := OptionUniverseSelectionModel.universesFrom m alg rest
          (optionSymbol.underlying :: seen)
        (u :: next.1, next.2)

/-- The outcome of one `CreateUniverses` call: the updated policy object, the
universes yielded, and the error raised, if any. -/
structure RefreshResult where
  model : OptionUniverseSelectionModel
  universes : List OptionChainUniverse
  error : Option ValueErrorKind

/-- `CreateUniverses` (lines 45-58): set
`nextRefreshTimeUtc = (algorithm.UtcTime + refreshInterval).date()` (line 46), then
run the selector on `algorithm.UtcTime` and the de-duplicating yield loop with a
seen-set built fresh for this call. -/
def OptionUniverseSelectionModel.CreateUniverses (m : OptionUniverseSelectionModel)
    (alg : Algorithm) : RefreshResult :=
  let m2 := { m with nextRefreshTimeUtc := dateOf (alg.utcTime + m.refreshInterval) }
  let out := m.universesFrom alg (m.optionChainSymbolSelector alg.utcTime) []
  { model := m2, universes := out.1, error := out.2 }

/-- Specification-side description of the de-duplication: keep each symbol whose
underlying has not been seen before, first occurrence wins. Used to state what the
loop's yield sequence is. -/
def keepFirstByUnderlying : List Symbol → List UnderlyingSymbol → List Symbol
  | [], _ => []
  | s :: rest, seen =>
    if s.underlying ∈ seen then keepFirstByUnderlying rest seen
    else s :: keepFirstByUnderlying rest (s.underlying :: seen)

/-- The post-configuration applied to the resolved or created chain security
(lines 85-89): attach the module's contract filter, then mark non-tradable. -/
def postConfigure (sec : Security) : Security :=
  { sec with contractFilter := some OptionUniverseSelectionModel.Filter, isTradable := false }

/- Concrete fixtures used by the witness theorems. -/

/-- A non-canonical AAPL option contract symbol on market "usa". -/
def aaplOption1 : Symbol :=
  { value := "AAPL CONTRACT A"
    securityType := SecurityType.Option
    market := "usa"
    underlying := { value := "AAPL", market := "usa" }
    isCanonical := false }

/-- A second, different non-canonical option contract on the same AAPL underlying. -/
def aaplOption2 : Symbol :=
  { value := "AAPL CONTRACT B"
    securityType := SecurityType.Option
    market := "usa"
    underlying := { value := "AAPL", market := "usa" }
    isCanonical := false }

/-- An equity (non-option) MSFT symbol. -/
def msftEquity : Symbol :=
  { value := "MSFT"
    securityType := SecurityType.Equity
    market := "usa"
    underlying := { value := "MSFT", market := "usa" }
    isCanonical := false }

/-- Sample universe settings. -/
def sampleSettings : UniverseSettings :=
  { resolution := 60, fillForward := true, leverage := 2, extendedMarketHours := false }

/-- A host context with an empty security registry. -/
def sampleAlg : Algorithm :=
  { utcTime := 123456789
    securities := []
    universeSettings := sampleSettings
    securityInitializer := { tag := 0 }
    liveMode := false }

/-- A policy whose selector returns two AAPL option contracts and then an MSFT
equity symbol, with a one-day refresh interval and deferred settings/initializer. -/
def sampleModel : OptionUniverseSelectionModel :=
  OptionUniverseSelectionModel.create usPerDay
    (fun _ => [aaplOption1, aaplOption2, msftEquity]) none none

/-- A policy whose selector returns only option symbols, with a duplicated
underlying. -/
def dedupModel : OptionUniverseSelectionModel :=
  OptionUniverseSelectionModel.create usPerDay
    (fun _ => [aaplOption1, aaplOption2]) none none

/-- The canonical chain symbol produced for the AAPL underlying on market "usa". -/
def canonicalAAPL : Symbol :=
  Symbol.Create ("AAPL") SecurityType.Option ("usa") ("?" ++ "AAPL")

/-- A pre-existing registry security keyed by the canonical AAPL chain symbol. -/
def registrySecurity : Security :=
  { key := canonicalAAPL
    source := SecuritySource.registry 7
    contractFilter := none
    isTradable := true }

/-- The sample host context with `registrySecurity` present in the registry. -/
def algWithRegistry : Algorithm :=
  { sampleAlg with securities := [registrySecurity] }

/- Helper lemmas shared by the claim theorems. -/

/-- On an option symbol, `CreateOptionChain` succeeds with the body's universe and
event trace. -/
theorem createOptionChain_eq_ok (m : OptionUniverseSelectionModel) (alg : Algorithm)
    (s : Symbol) (hs : s.securityType = SecurityType.Option) :
    m.CreateOptionChain alg s = Except.ok (m.builtUniverse alg s, m.chainEvents alg s) := by
  simp [OptionUniverseSelectionModel.CreateOptionChain,
    OptionUniverseSelectionModel.builtUniverse, OptionUniverseSelectionModel.chainEvents, hs]

/-- When every symbol of the selector output is an option symbol, the yield loop
produces exactly the universes of the first-seen-underlying subsequence, with no
error. -/
theorem universesFrom_allOption (m : OptionUniverseSelectionModel) (alg : Algorithm) :
    ∀ (l : List Symbol) (seen : List UnderlyingSymbol),
      (∀ s ∈ l, s.securityType = SecurityType.Option) →
      m.universesFrom alg l seen
        = ((keepFirstByUnderlying l seen).map (m.builtUniverse alg), none)
  | [], seen, _ => by
      simp [OptionUniverseSelectionModel.universesFrom, keepFirstByUnderlying]
  | s :: rest, seen, h => by
      have hs : s.securityType = SecurityType.Option := h s (List.mem_cons_self _ _)
      have hrest : ∀ x ∈ rest, x.securityType = SecurityType.Option :=
        fun x hx => h x (List.mem_cons_of_mem _ hx)
      by_cases hmem : s.underlying ∈ seen
      · simp [OptionUniverseSelectionModel.universesFrom, keepFirstByUnderlying, hs, hmem,
          universesFrom_allOption m alg rest seen hrest]
      · simp [OptionUniverseSelectionModel.universesFrom, keepFirstByUnderlying, hs, hmem,
          createOptionChain_eq_ok m alg s hs,
          universesFrom_allOption m alg rest (s.underlying :: seen) hrest]

/-- When the selector output is an all-option block followed by a non-option
symbol, the yield loop produces exactly the universes of the block's
first-seen-underlying subsequence and then raises `invalidSelectorOutput`. -/
theorem universesFrom_errorAt (m : OptionUniverseSelectionModel) (alg : Algorithm)
    (b : Symbol) (post : List Symbol) (hb : b.securityType ≠ SecurityType.Option) :
    ∀ (pre : List Symbol) (seen : List UnderlyingSymbol),
      (∀ s ∈ pre, s.securityType = SecurityType.Option) →
      m.universesFrom alg (pre ++ b :: post) seen
        = ((keepFirstByUnderlying pre seen).map (m.builtUniverse alg),
            some ValueErrorKind.invalidSelectorOutput)
  | [], seen, _ => by
      simp [OptionUniverseSelectionModel.universesFrom, keepFirstByUnderlying, hb]
  | s :: rest, seen, h => by
      have hs : s.securityType = SecurityType.Option := h s (List.mem_cons_self _ _)
      have hrest : ∀ x ∈ rest, x.securityType = SecurityType.Option :=
        fun x hx => h x (List.mem_cons_of_mem _ hx)
      by_cases hmem : s.underlying ∈ seen
      · simp [OptionUniverseSelectionModel.universesFrom, keepFirstByUnderlying, hs, hmem,
          universesFrom_errorAt m alg b post hb rest seen hrest]
      · simp [OptionUniverseSelectionModel.universesFrom, keepFirstByUnderlying, hs, hmem,
          createOptionChain_eq_ok m alg s hs,
          universesFrom_errorAt m alg b post hb rest (s.underlying :: seen) hrest]

/-- Membership in the underlyings of the kept subsequence: exactly the unseen
underlyings occurring in the input. -/
theorem keepFirst_mem_map : ∀ (l : List Symbol) (seen : List UnderlyingSymbol)
    (u : UnderlyingSymbol),
    u ∈ (keepFirstByUnderlying l seen).map (fun s => s.underlying)
      ↔ (u ∉ seen ∧ u ∈ l.map (fun s => s.underlying))
  | [], seen, u => by simp [keepFirstByUnderlying]
  | s :: rest, seen, u => by
      by_cases hmem : s.underlying ∈ seen
      · simp only [keepFirstByUnderlying, if_pos hmem, keepFirst_mem_map rest seen u,
          List.map_cons, List.mem_cons]
        constructor
        · rintro ⟨h1, h2⟩
          exact ⟨h1, Or.inr h2⟩
        · rintro ⟨h1, h2⟩
          rcases h2 with h2 | h2
          · subst h2
            exact absurd hmem h1
          · exact ⟨h1, h2⟩
      · simp only [keepFirstByUnderlying, if_neg hmem, List.map_cons, List.mem_cons,
          keepFirst_mem_map rest (s.underlying :: seen) u]
        constructor
        · rintro (h1 | ⟨h1, h2⟩)
          · subst h1
            exact ⟨hmem, Or.inl rfl⟩
          · exact ⟨fun hu => h1 (Or.inr hu), Or.inr h2⟩
        · rintro ⟨h1, h2 | h2⟩
          · exact Or.inl h2
          · by_cases he : u = s.underlying
            · exact Or.inl he
            · refine Or.inr ⟨?_, h2⟩
              rintro (hu | hu)
              · exact he hu
              · exact h1 hu

/-- The underlyings of the kept subsequence contain no duplicates. -/
theorem keepFirst_nodup : ∀ (l : List Symbol) (seen : List UnderlyingSymbol),
    ((keepFirstByUnderlying l seen).map (fun s => s.underlying)).Nodup
  | [], seen => by simp [keepFirstByUnderlying]
  | s :: rest, seen => by
      by_cases hmem : s.underlying ∈ seen
      · simpa [keepFirstByUnderlying, if_pos hmem] using keepFirst_nodup rest seen
      · simp only [keepFirstByUnderlying, if_neg hmem, List.map_cons, List.nodup_cons]
        refine ⟨?_, keepFirst_nodup rest (s.underlying :: seen)⟩
        intro hin
        exact ((keepFirst_mem_map rest (s.underlying :: seen) s.underlying).mp hin).1
          (List.mem_cons_self _ _)

/-- A kept symbol's underlying was not already seen. -/
theorem keepFirst_mem_not_seen {l : List Symbol} {seen : List UnderlyingSymbol}
    {s2 : Symbol} (h : s2 ∈ keepFirstByUnderlying l seen) : s2.underlying ∉ seen :=
  ((keepFirst_mem_map l seen s2.underlying).mp
    (List.mem_map_of_mem (fun s => s.underlying) h)).1

/-- First-seen-wins: a kept symbol is the first symbol of the input with its
underlying. -/
theorem keepFirst_first_seen : ∀ (l : List Symbol) (seen : List UnderlyingSymbol)
    (s2 : Symbol), s2 ∈ keepFirstByUnderlying l seen →
    l.find? (fun x => decide (x.underlying = s2.underlying)) = some s2
  | [], seen, s2, h => by simp [keepFirstByUnderlying] at h
  | s :: rest, seen, s2, h => by
      by_cases hmem : s.underlying ∈ seen
      · rw [keepFirstByUnderlying, if_pos hmem] at h
        have hne : s.underlying ≠ s2.underlying := by
          intro he
          exact keepFirst_mem_not_seen h (he ▸ hmem)
        have hd : decide (s.underlying = s2.underlying) = false := decide_eq_false hne
        simp only [List.find?_cons, hd]
        exact keepFirst_first_seen rest seen s2 h
      · rw [keepFirstByUnderlying, if_neg hmem] at h
        rcases List.mem_cons.mp h with h | h
        · subst h
          simp [List.find?_cons]
        · have hne : s.underlying ≠ s2.underlying := by
            intro he
            exact keepFirst_mem_not_seen h (he ▸ List.mem_cons_self _ _)
          have hd : decide (s.underlying = s2.underlying) = false := decide_eq_false hne
          simp only [List.find?_cons, hd]
          exact keepFirst_first_seen rest (s.underlying :: seen) s2 h

/-- Every universe in the loop's output comes from `CreateOptionChain` applied to
some option symbol of the input. -/
theorem mem_universesFrom (m : OptionUniverseSelectionModel) (alg : Algorithm) :
    ∀ (l : List Symbol) (seen : List UnderlyingSymbol) (u : OptionChainUniverse),
      u ∈ (m.universesFrom alg l seen).1 →
      ∃ s, s ∈ l ∧ s.securityType = SecurityType.Option ∧ u = m.builtUniverse alg s
  | [], seen, u, h => by
      simp [OptionUniverseSelectionModel.universesFrom] at h
  | s :: rest, seen, u, h => by
      rw [OptionUniverseSelectionModel.universesFrom] at h
      by_cases hs : s.securityType = SecurityType.Option
      · rw [if_neg (fun hc => hc hs)] at h
        by_cases hmem : s.underlying ∈ seen
        · rw [if_pos hmem] at h
          obtain ⟨x, hx, hty, hu⟩ := mem_universesFrom m alg rest seen u h
          exact ⟨x, List.mem_cons_of_mem _ hx, hty, hu⟩
        · rw [if_neg hmem] at h
          simp only [createOptionChain_eq_ok m alg s hs, List.mem_cons] at h
          rcases h with h | h
          · exact ⟨s, List.mem_cons_self _ _, hs, h⟩
          · obtain ⟨x, hx, hty, hu⟩ :=
              mem_universesFrom m alg rest (s.underlying :: seen) u h
            exact ⟨x, List.mem_cons_of_mem _ hx, hty, hu⟩
      · rw [if_pos hs] at h
        simp at h

/-- The model returned by `CreateUniverses` is the input model with only
`nextRefreshTimeUtc` replaced. -/
theorem createUniverses_model (m : OptionUniverseSelectionModel) (alg : Algorithm) :
    (m.CreateUniverses alg).model
      = { m with nextRefreshTimeUtc := dateOf (alg.utcTime + m.refreshInterval) } := rfl

/-- The universe built for a symbol does not depend on `nextRefreshTimeUtc`. -/
theorem builtUniverse_nextRefresh_irrel (m : OptionUniverseSelectionModel)
    (alg : Algorithm) (x : Nat) :
    OptionUniverseSelectionModel.builtUniverse
        { m with nextRefreshTimeUtc := x } alg
      = m.builtUniverse alg :=
  funext fun _ => rfl

/-- The first registry entry matched by the lookup is keyed by the looked-up
symbol. -/
theorem filter_head_key (alg : Algorithm) (sym : Symbol) (e : Security)
    (rest : List Security)
    (hfl : alg.securities.filter (fun t => decide (t.key = sym)) = e :: rest) :
    e.key = sym := by
  have hmem : e ∈ alg.securities.filter (fun t => decide (t.key = sym)) := by
    rw [hfl]
    exact List.mem_cons_self _ _
  exact of_decide_eq_true (List.mem_filter.mp hmem).2

/-- Shape of the chain-construction body when the registry lookup finds an
entry: the existing security is reused and post-configured, and the trace holds
the two log calls followed by `SetFilter` and the `IsTradable` assignment. -/
theorem body_eq_reuse (m : OptionUniverseSelectionModel) (alg : Algorithm)
    (s0 : Symbol) (e : Security) (rest : List Security)
    (hfl : alg.securities.filter (fun t => decide (t.key = canonicalOf s0)) = e :: rest) :
    m.createOptionChainBody alg s0
      = ({ security := postConfigure e
           settings := m.resolvedSettings alg
           initializer := m.resolvedInitializer alg
           liveMode := alg.liveMode },
         [Event.logCreatingChain alg.utcTime s0,
          Event.logResolvedExisting alg.utcTime (canonicalOf s0),
          Event.setFilterOn e.key, Event.setIsTradable e.key false]) := by
  simp [OptionUniverseSelectionModel.createOptionChainBody, postConfigure, hfl]

/-- Shape of the chain-construction body when the registry lookup finds nothing:
a fresh security is built via `CreateOptionChainSecurity` and post-configured,
and the trace records the construction before `SetFilter` and the `IsTradable`
assignment. -/
theorem body_eq_fresh (m : OptionUniverseSelectionModel) (alg : Algorithm)
    (s0 : Symbol)
    (hfl : alg.securities.filter (fun t => decide (t.key = canonicalOf s0)) = []) :
    m.createOptionChainBody alg s0
      = ({ security := postConfigure (SecurityManager.CreateSecurity (canonicalOf s0)
             (m.resolvedSettings alg) (m.resolvedInitializer alg) alg.liveMode)
           settings := m.resolvedSettings alg
           initializer := m.resolvedInitializer alg
           liveMode := alg.liveMode },
         [Event.logCreatingChain alg.utcTime s0,
          Event.logCreatingChainSecurity alg.utcTime (canonicalOf s0),
          Event.createdSecurity (canonicalOf s0),
          Event.setFilterOn (canonicalOf s0),
          Event.setIsTradable (canonicalOf s0) false]) := by
  simp [OptionUniverseSelectionModel.createOptionChainBody, postConfigure,
    OptionUniverseSelectionModel.CreateOptionChainSecurity,
    SecurityManager.CreateSecurity, hfl]

/-- Core facts about the universe built for a symbol: its security is keyed by the
canonical symbol, carries the module's filter, is non-tradable, and the universe
wraps the lazily resolved settings, initializer and live-mode flag. -/
theorem builtUniverse_security (m : OptionUniverseSelectionModel) (alg : Algorithm)
    (s : Symbol) :
    (m.builtUniverse alg s).security.key = canonicalOf s
    ∧ (m.builtUniverse alg s).security.contractFilter
        = some OptionUniverseSelectionModel.Filter
    ∧ (m.builtUniverse alg s).security.isTradable = false
    ∧ (m.builtUniverse alg s).settings = m.resolvedSettings alg
    ∧ (m.builtUniverse alg s).initializer = m.resolvedInitializer alg
    ∧ (m.builtUniverse alg s).liveMode = alg.liveMode := by
  unfold OptionUniverseSelectionModel.builtUniverse
  cases hfl : alg.securities.filter (fun t => decide (t.key = canonicalOf s)) with
  | nil =>
      rw [body_eq_fresh m alg s hfl]
      exact ⟨rfl, rfl, rfl, rfl, rfl, rfl⟩
  | cons e rest =>
      rw [body_eq_reuse m alg s e rest hfl]
      exact ⟨filter_head_key alg (canonicalOf s) e rest hfl, rfl, rfl, rfl, rfl, rfl⟩

/-- The trace of a chain construction ends with `SetFilter` followed by the
`IsTradable := false` assignment, in that order. -/
theorem chainEvents_tail (m : OptionUniverseSelectionModel) (alg : Algorithm)
    (s : Symbol) :
    ∃ pre, m.chainEvents alg s
      = pre ++ [Event.setFilterOn (canonicalOf s),
                Event.setIsTradable (canonicalOf s) false] := by
  unfold OptionUniverseSelectionModel.chainEvents
  cases hfl : alg.securities.filter (fun t => decide (t.key = canonicalOf s)) with
  | nil =>
      rw [body_eq_fresh m alg s hfl]
      exact ⟨[Event.logCreatingChain alg.utcTime s,
              Event.logCreatingChainSecurity alg.utcTime (canonicalOf s),
              Event.createdSecurity (canonicalOf s)], rfl⟩
  | cons e rest =>
      rw [body_eq_reuse m alg s e rest hfl,
        filter_head_key alg (canonicalOf s) e rest hfl]
      exact ⟨[Event.logCreatingChain alg.utcTime s,
              Event.logResolvedExisting alg.utcTime (canonicalOf s)], rfl⟩

/- Claim theorems. -/

/-- Claim C1: for every call `refresh(t)` (`CreateUniverses` with
`algorithm.UtcTime = t`), afterwards `GetNextRefreshTimeUtc` returns
`date(t + refreshInterval)`: the sum truncated to a date boundary with the
time-of-day discarded (second conjunct), for every `t` regardless of its
time-of-day component. -/
theorem refresh_sets_next_refresh_time (m : OptionUniverseSelectionModel)
    (alg : Algorithm) :
    (m.CreateUniverses alg).model.GetNextRefreshTimeUtc
        = dateOf (alg.utcTime + m.refreshInterval)
      ∧ dateOf (alg.utcTime + m.refreshInterval) % usPerDay = 0 :=
  ⟨rfl, Nat.mul_mod_left _ _⟩

/-- Claim C9: `Filter` is the identity function: it returns exactly the
filter-specification value it received, of the same type; as a pure Lean function
it mutates no state. -/
theorem filter_is_identity :
    ∀ f : OptionFilterUniverse, OptionUniverseSelectionModel.Filter f = f :=
  fun _ => rfl

/-- Claim C10: `CreateUniverses` mutates only `nextRefreshTimeUtc`: the resulting
model is the input with that single field replaced, so `refreshInterval`,
`optionChainSymbolSelector`, `universeSettings` and `securityInitializer` are
unchanged (the chain-building steps are embedded as model-read-only functions and
return no model at all), and `GetNextRefreshTimeUtc` is a pure accessor returning
`nextRefreshTimeUtc` with no mutation. -/
theorem refresh_frame (m : OptionUniverseSelectionModel) (alg : Algorithm) :
    ((m.CreateUniverses alg).model
        = { m with nextRefreshTimeUtc := dateOf (alg.utcTime + m.refreshInterval) })
      ∧ (m.CreateUniverses alg).model.refreshInterval = m.refreshInterval
      ∧ (m.CreateUniverses alg).model.optionChainSymbolSelector
          = m.optionChainSymbolSelector
      ∧ (m.CreateUniverses alg).model.universeSettings = m.universeSettings
      ∧ (m.CreateUniverses alg).model.securityInitializer = m.securityInitializer
      ∧ m.GetNextRefreshTimeUtc = m.nextRefreshTimeUtc :=
  ⟨rfl, rfl, rfl, rfl, rfl, rfl⟩

/-- Claim C2: when the selector output consists of option symbols, `refresh`
yields at most one `ChainUniverse` per distinct underlying: the yielded sequence
is exactly one universe per first-seen underlying in selector order (conjunct 2,
with the kept subsequence's underlyings duplicate-free and counting each occurring
underlying exactly once, conjunct 3), each kept symbol being the first selector
symbol with its underlying (conjunct 4); the seen-set is built fresh on each call,
so a second `refresh` on the updated model yields the same universes again
(conjunct 5). -/
theorem refresh_dedups_per_underlying (m : OptionUniverseSelectionModel)
    (alg : Algorithm)
    (hopt : ∀ s ∈ m.optionChainSymbolSelector alg.utcTime,
      s.securityType = SecurityType.Option) :
    (m.CreateUniverses alg).error = none
    ∧ (m.CreateUniverses alg).universes
        = (keepFirstByUnderlying (m.optionChainSymbolSelector alg.utcTime) []).map
            (m.builtUniverse alg)
    ∧ (∀ u : UnderlyingSymbol,
        ((keepFirstByUnderlying (m.optionChainSymbolSelector alg.utcTime) []).map
            (fun x => x.underlying)).count u
          = if u ∈ (m.optionChainSymbolSelector alg.utcTime).map (fun x => x.underlying)
            then 1 else 0)
    ∧ (∀ s2 ∈ keepFirstByUnderlying (m.optionChainSymbolSelector alg.utcTime) [],
        (m.optionChainSymbolSelector alg.utcTime).find?
            (fun x => decide (x.underlying = s2.underlying)) = some s2)
    ∧ ((m.CreateUniverses alg).model.CreateUniverses alg).universes
        = (m.CreateUniverses alg).universes := by
  have hmain := universesFrom_allOption m alg
    (m.optionChainSymbolSelector alg.utcTime) [] hopt
  refine ⟨?_, ?_, ?_, ?_, ?_⟩
  · exact congrArg Prod.snd hmain
  · exact congrArg Prod.fst hmain
  · intro u
    by_cases hm : u ∈ (m.optionChainSymbolSelector alg.utcTime).map
        (fun x => x.underlying)
    · rw [if_pos hm]
      exact List.count_eq_one_of_mem (keepFirst_nodup _ _)
        ((keepFirst_mem_map _ _ u).mpr ⟨List.not_mem_nil u, hm⟩)
    · rw [if_neg hm]
      exact List.count_eq_zero.mpr
        (fun hc => hm ((keepFirst_mem_map _ _ u).mp hc).2)
  · exact fun s2 hs2 => keepFirst_first_seen _ [] s2 hs2
  · have h2 := universesFrom_allOption
      { m with nextRefreshTimeUtc := dateOf (alg.utcTime + m.refreshInterval) } alg
      (m.optionChainSymbolSelector alg.utcTime) [] hopt
    have e1 : ((m.CreateUniverses alg).model.CreateUniverses alg).universes
        = (keepFirstByUnderlying (m.optionChainSymbolSelector alg.utcTime) []).map
            (OptionUniverseSelectionModel.builtUniverse
              { m with nextRefreshTimeUtc := dateOf (alg.utcTime + m.refreshInterval) }
              alg) := congrArg Prod.fst h2
    have e2 : (m.CreateUniverses alg).universes
        = (keepFirstByUnderlying (m.optionChainSymbolSelector alg.utcTime) []).map
            (m.builtUniverse alg) := congrArg Prod.fst hmain
    rw [e1, e2, builtUniverse_nextRefresh_irrel]

/-- Claim C3: when the selector output is a block of option symbols followed by a
non-option symbol, `refresh` raises the `invalidSelectorOutput` `ValueError` upon
encountering that symbol, after having yielded exactly the universes for the
qualifying (first-seen-underlying) symbols that precede it, and yields nothing
further. -/
theorem refresh_fails_on_non_option (m : OptionUniverseSelectionModel)
    (alg : Algorithm) (pre : List Symbol) (b : Symbol) (post : List Symbol)
    (hsel : m.optionChainSymbolSelector alg.utcTime = pre ++ b :: post)
    (hpre : ∀ s ∈ pre, s.securityType = SecurityType.Option)
    (hb : b.securityType ≠ SecurityType.Option) :
    (m.CreateUniverses alg).error = some ValueErrorKind.invalidSelectorOutput
    ∧ (m.CreateUniverses alg).universes
        = (keepFirstByUnderlying pre []).map (m.builtUniverse alg) := by
  have h := universesFrom_errorAt m alg b post hb pre [] hpre
  constructor
  · show (m.universesFrom alg (m.optionChainSymbolSelector alg.utcTime) []).2 = _
    rw [hsel, h]
  · show (m.universesFrom alg (m.optionChainSymbolSelector alg.utcTime) []).1 = _
    rw [hsel, h]

/-- Claim C4: `CreateOptionChain` on an option symbol succeeds, and the produced
universe's security is keyed by the canonical symbol: a non-canonical symbol is
rewritten via `Symbol.Create` to the canonical alias `"?" + underlying.Value` on
the same market (with the rewritten symbol canonical and its display value the
alias derived from the underlying's display value), while an already-canonical
symbol is used as-is. -/
theorem createOptionChain_canonicalizes (m : OptionUniverseSelectionModel)
    (alg : Algorithm) (s : Symbol)
    (hty : s.securityType = SecurityType.Option) :
    m.CreateOptionChain alg s
        = Except.ok (m.builtUniverse alg s, m.chainEvents alg s)
    ∧ (m.builtUniverse alg s).security.key = canonicalOf s
    ∧ (s.isCanonical = false →
        canonicalOf s
            = Symbol.Create s.underlying.value SecurityType.Option s.market
                ("?" ++ s.underlying.value)
          ∧ (canonicalOf s).isCanonical = true
          ∧ (canonicalOf s).value = "?" ++ s.underlying.value
          ∧ (canonicalOf s).market = s.market)
    ∧ (s.isCanonical = true → canonicalOf s = s) := by
  refine ⟨createOptionChain_eq_ok m alg s hty,
    (builtUniverse_security m alg s).1, ?_, ?_⟩
  · intro hnc
    refine ⟨?_, ?_, ?_, ?_⟩ <;> simp [canonicalOf, hnc, Symbol.Create]
  · intro hc
    simp [canonicalOf, hc]

/-- Claim C5: when the registry already holds a security keyed by the canonical
symbol, `CreateOptionChain` wraps that existing security object (the first
matching entry, post-configured in place) and constructs no new chain security
(no `createdSecurity` event occurs); a new security is constructed via
`CreateOptionChainSecurity` exactly when no registry entry with the canonical
symbol exists. -/
theorem createOptionChain_reuses_registry (m : OptionUniverseSelectionModel)
    (alg : Algorithm) (s : Symbol)
    (hty : s.securityType = SecurityType.Option) :
    m.CreateOptionChain alg s
        = Except.ok (m.builtUniverse alg s, m.chainEvents alg s)
    ∧ (∀ e rest,
        alg.securities.filter (fun t => decide (t.key = canonicalOf s)) = e :: rest →
          (m.builtUniverse alg s).security = postConfigure e
          ∧ ∀ k, Event.createdSecurity k ∉ m.chainEvents alg s)
    ∧ (alg.securities.filter (fun t => decide (t.key = canonicalOf s)) = [] →
          (m.builtUniverse alg s).security
              = postConfigure (SecurityManager.CreateSecurity (canonicalOf s)
                  (m.resolvedSettings alg) (m.resolvedInitializer alg) alg.liveMode)
          ∧ Event.createdSecurity (canonicalOf s) ∈ m.chainEvents alg s) := by
  refine ⟨createOptionChain_eq_ok m alg s hty, ?_, ?_⟩
  · intro e rest hfl
    constructor
    · show (m.createOptionChainBody alg s).1.security = _
      rw [body_eq_reuse m alg s e rest hfl]
    · intro k
      show Event.createdSecurity k ∉ (m.createOptionChainBody alg s).2
      rw [body_eq_reuse m alg s e rest hfl]
      simp
  · intro hfl
    constructor
    · show (m.createOptionChainBody alg s).1.security = _
      rw [body_eq_fresh m alg s hfl]
    · show Event.createdSecurity (canonicalOf s) ∈ (m.createOptionChainBody alg s).2
      rw [body_eq_fresh m alg s hfl]
      simp

/-- Claim C6: after `CreateOptionChain` completes on an option symbol, the
resulting security reports `isTradable = false` and its contract filter is the
module's `Filter` function (the no-op default); in the effect trace, the
non-tradable mark is applied strictly after the filter is attached: the trace
ends with `SetFilter` immediately followed by the `IsTradable := false`
assignment. -/
theorem createOptionChain_postconfigures (m : OptionUniverseSelectionModel)
    (alg : Algorithm) (s : Symbol)
    (hty : s.securityType = SecurityType.Option) :
    m.CreateOptionChain alg s
        = Except.ok (m.builtUniverse alg s, m.chainEvents alg s)
    ∧ (m.builtUniverse alg s).security.isTradable = false
    ∧ (m.builtUniverse alg s).security.contractFilter
        = some OptionUniverseSelectionModel.Filter
    ∧ ∃ pre, m.chainEvents alg s
        = pre ++ [Event.setFilterOn (canonicalOf s),
                  Event.setIsTradable (canonicalOf s) false] :=
  ⟨createOptionChain_eq_ok m alg s hty,
   (builtUniverse_security m alg s).2.2.1,
   (builtUniverse_security m alg s).2.1,
   chainEvents_tail m alg s⟩

/-- Claim C7: the effective settings and initializer are resolved on each call
from the policy's optional fields, falling back to the host's current defaults
exactly when the field is `none` and using the explicit construction-time value
when supplied; the resolution is per-call, so after one `refresh`, a second
`refresh` against a host whose defaults changed uses that host's defaults for
every universe it yields. -/
theorem refresh_resolves_defaults_lazily (m : OptionUniverseSelectionModel)
    (alg : Algorithm) (s : Symbol) :
    ((m.builtUniverse alg s).settings = m.resolvedSettings alg)
    ∧ ((m.builtUniverse alg s).initializer = m.resolvedInitializer alg)
    ∧ (m.universeSettings = none → m.resolvedSettings alg = alg.universeSettings)
    ∧ (∀ u, m.universeSettings = some u → m.resolvedSettings alg = u)
    ∧ (m.securityInitializer = none →
        m.resolvedInitializer alg = alg.securityInitializer)
    ∧ (∀ i, m.securityInitializer = some i → m.resolvedInitializer alg = i)
    ∧ (∀ alg2 : Algorithm, m.universeSettings = none → m.securityInitializer = none →
        ∀ u ∈ ((m.CreateUniverses alg).model.CreateUniverses alg2).universes,
          u.settings = alg2.universeSettings
          ∧ u.initializer = alg2.securityInitializer) := by
  refine ⟨(builtUniverse_security m alg s).2.2.2.1,
    (builtUniverse_security m alg s).2.2.2.2.1, ?_, ?_, ?_, ?_, ?_⟩
  · intro h
    simp [OptionUniverseSelectionModel.resolvedSettings, h]
  · intro u h
    simp [OptionUniverseSelectionModel.resolvedSettings, h]
  · intro h
    simp [OptionUniverseSelectionModel.resolvedInitializer, h]
  · intro i h
    simp [OptionUniverseSelectionModel.resolvedInitializer, h]
  · intro alg2 hsna hina u hu
    obtain ⟨x, _, _, hux⟩ :=
      mem_universesFrom (m.CreateUniverses alg).model alg2 _ [] u hu
    subst hux
    have hsna2 : ((m.CreateUniverses alg).model).universeSettings = none := hsna
    have hina2 : ((m.CreateUniverses alg).model).securityInitializer = none := hina
    constructor
    · rw [(builtUniverse_security (m.CreateUniverses alg).model alg2 x).2.2.2.1]
      simp [OptionUniverseSelectionModel.resolvedSettings, hsna2]
    · rw [(builtUniverse_security (m.CreateUniverses alg).model alg2 x).2.2.2.2.1]
      simp [OptionUniverseSelectionModel.resolvedInitializer, hina2]

/-- Claim C8: `CreateOptionChain` on a non-option symbol fails immediately with
the `invalidSymbolKind` `ValueError` (the guard is the first statement, so the
error result carries no universe and no effect trace); and under the precondition
that the selector returns only option symbols, no `refresh` call can produce this
error. -/
theorem createOptionChain_rejects_non_option (m : OptionUniverseSelectionModel)
    (alg : Algorithm) (s : Symbol)
    (h : s.securityType ≠ SecurityType.Option) :
    m.CreateOptionChain alg s = Except.error ValueErrorKind.invalidSymbolKind
    ∧ ∀ (m2 : OptionUniverseSelectionModel) (alg2 : Algorithm),
        (∀ x ∈ m2.optionChainSymbolSelector alg2.utcTime,
          x.securityType = SecurityType.Option) →
        (m2.CreateUniverses alg2).error ≠ some ValueErrorKind.invalidSymbolKind := by
  constructor
  · simp [OptionUniverseSelectionModel.CreateOptionChain, h]
  · intro m2 alg2 hopt
    have hall := universesFrom_allOption m2 alg2
      (m2.optionChainSymbolSelector alg2.utcTime) [] hopt
    show (m2.universesFrom alg2 (m2.optionChainSymbolSelector alg2.utcTime) []).2 ≠ _
    rw [hall]
    simp

/- Witnesses: concrete instantiations of the claim theorems with their
hypotheses discharged. -/

/-- Witness for C2 at a selector returning two option contracts on the same
underlying. -/
theorem refresh_dedups_per_underlying_witness :
    (∀ s ∈ dedupModel.optionChainSymbolSelector sampleAlg.utcTime,
      s.securityType = SecurityType.Option)
    ∧ ((dedupModel.CreateUniverses sampleAlg).error = none
      ∧ (dedupModel.CreateUniverses sampleAlg).universes
          = (keepFirstByUnderlying
              (dedupModel.optionChainSymbolSelector sampleAlg.utcTime) []).map
              (dedupModel.builtUniverse sampleAlg)
      ∧ (∀ u : UnderlyingSymbol,
          ((keepFirstByUnderlying
              (dedupModel.optionChainSymbolSelector sampleAlg.utcTime) []).map
              (fun x => x.underlying)).count u
            = if u ∈ (dedupModel.optionChainSymbolSelector sampleAlg.utcTime).map
                  (fun x => x.underlying) then 1 else 0)
      ∧ (∀ s2 ∈ keepFirstByUnderlying
            (dedupModel.optionChainSymbolSelector sampleAlg.utcTime) [],
          (dedupModel.optionChainSymbolSelector sampleAlg.utcTime).find?
              (fun x => decide (x.underlying = s2.underlying)) = some s2)
      ∧ ((dedupModel.CreateUniverses sampleAlg).model.CreateUniverses
            sampleAlg).universes
          = (dedupModel.CreateUniverses sampleAlg).universes) :=
  ⟨by decide, refresh_dedups_per_underlying dedupModel sampleAlg (by decide)⟩

/-- Witness for C3 at the scenario selector
`[Option(AAPL), Option(AAPL, different contract), Equity(MSFT)]`. -/
theorem refresh_fails_on_non_option_witness :
    (sampleModel.optionChainSymbolSelector sampleAlg.utcTime
        = [aaplOption1, aaplOption2] ++ msftEquity :: [])
    ∧ (∀ s ∈ [aaplOption1, aaplOption2], s.securityType = SecurityType.Option)
    ∧ msftEquity.securityType ≠ SecurityType.Option
    ∧ ((sampleModel.CreateUniverses sampleAlg).error
          = some ValueErrorKind.invalidSelectorOutput
      ∧ (sampleModel.CreateUniverses sampleAlg).universes
          = (keepFirstByUnderlying [aaplOption1, aaplOption2] []).map
              (sampleModel.builtUniverse sampleAlg)) :=
  ⟨rfl, by decide, by decide,
    refresh_fails_on_non_option sampleModel sampleAlg [aaplOption1, aaplOption2]
      msftEquity [] rfl (by decide) (by decide)⟩

/-- Witness for C4 at a non-canonical AAPL option contract on market "usa". -/
theorem createOptionChain_canonicalizes_witness :
    aaplOption1.securityType = SecurityType.Option
    ∧ (sampleModel.CreateOptionChain sampleAlg aaplOption1
          = Except.ok (sampleModel.builtUniverse sampleAlg aaplOption1,
              sampleModel.chainEvents sampleAlg aaplOption1)
      ∧ (sampleModel.builtUniverse sampleAlg aaplOption1).security.key
          = canonicalOf aaplOption1
      ∧ (aaplOption1.isCanonical = false →
          canonicalOf aaplOption1
              = Symbol.Create aaplOption1.underlying.value SecurityType.Option
                  aaplOption1.market ("?" ++ aaplOption1.underlying.value)
            ∧ (canonicalOf aaplOption1).isCanonical = true
            ∧ (canonicalOf aaplOption1).value = "?" ++ aaplOption1.underlying.value
            ∧ (canonicalOf aaplOption1).market = aaplOption1.market)
      ∧ (aaplOption1.isCanonical = true → canonicalOf aaplOption1 = aaplOption1)) :=
  ⟨by decide, createOptionChain_canonicalizes sampleModel sampleAlg aaplOption1
    (by decide)⟩

/-- Witness for C5 at a host whose registry already holds the canonical AAPL
chain security. -/
theorem createOptionChain_reuses_registry_witness :
    aaplOption1.securityType = SecurityType.Option
    ∧ (sampleModel.CreateOptionChain algWithRegistry aaplOption1
          = Except.ok (sampleModel.builtUniverse algWithRegistry aaplOption1,
              sampleModel.chainEvents algWithRegistry aaplOption1)
      ∧ (∀ e rest,
          algWithRegistry.securities.filter
              (fun t => decide (t.key = canonicalOf aaplOption1)) = e :: rest →
            (sampleModel.builtUniverse algWithRegistry aaplOption1).security
                = postConfigure e
            ∧ ∀ k, Event.createdSecurity k
                ∉ sampleModel.chainEvents algWithRegistry aaplOption1)
      ∧ (algWithRegistry.securities.filter
            (fun t => decide (t.key = canonicalOf aaplOption1)) = [] →
            (sampleModel.builtUniverse algWithRegistry aaplOption1).security
                = postConfigure (SecurityManager.CreateSecurity
                    (canonicalOf aaplOption1)
                    (sampleModel.resolvedSettings algWithRegistry)
                    (sampleModel.resolvedInitializer algWithRegistry)
                    algWithRegistry.liveMode)
            ∧ Event.createdSecurity (canonicalOf aaplOption1)
                ∈ sampleModel.chainEvents algWithRegistry aaplOption1)) :=
  ⟨by decide, createOptionChain_reuses_registry sampleModel algWithRegistry
    aaplOption1 (by decide)⟩

/-- Witness for C6 at an option contract symbol. -/
theorem createOptionChain_postconfigures_witness :
    aaplOption2.securityType = SecurityType.Option
    ∧ (sampleModel.CreateOptionChain sampleAlg aaplOption2
          = Except.ok (sampleModel.builtUniverse sampleAlg aaplOption2,
              sampleModel.chainEvents sampleAlg aaplOption2)
      ∧ (sampleModel.builtUniverse sampleAlg aaplOption2).security.isTradable = false
      ∧ (sampleModel.builtUniverse sampleAlg aaplOption2).security.contractFilter
          = some OptionUniverseSelectionModel.Filter
      ∧ ∃ pre, sampleModel.chainEvents sampleAlg aaplOption2
          = pre ++ [Event.setFilterOn (canonicalOf aaplOption2),
                    Event.setIsTradable (canonicalOf aaplOption2) false]) :=
  ⟨by decide, createOptionChain_postconfigures sampleModel sampleAlg aaplOption2
    (by decide)⟩

/-- Witness for C7 at a policy constructed with `none` settings and
initializer. -/
theorem refresh_resolves_defaults_lazily_witness :
    ((dedupModel.builtUniverse sampleAlg aaplOption1).settings
        = dedupModel.resolvedSettings sampleAlg)
    ∧ ((dedupModel.builtUniverse sampleAlg aaplOption1).initializer
        = dedupModel.resolvedInitializer sampleAlg)
    ∧ (dedupModel.universeSettings = none →
        dedupModel.resolvedSettings sampleAlg = sampleAlg.universeSettings)
    ∧ (∀ u, dedupModel.universeSettings = some u →
        dedupModel.resolvedSettings sampleAlg = u)
    ∧ (dedupModel.securityInitializer = none →
        dedupModel.resolvedInitializer sampleAlg = sampleAlg.securityInitializer)
    ∧ (∀ i, dedupModel.securityInitializer = some i →
        dedupModel.resolvedInitializer sampleAlg = i)
    ∧ (∀ alg2 : Algorithm, dedupModel.universeSettings = none →
        dedupModel.securityInitializer = none →
        ∀ u ∈ ((dedupModel.CreateUniverses sampleAlg).model.CreateUniverses
            alg2).universes,
          u.settings = alg2.universeSettings
          ∧ u.initializer = alg2.securityInitializer) :=
  refresh_resolves_defaults_lazily dedupModel sampleAlg aaplOption1

/-- Witness for C8 at an equity (non-option) symbol. -/
theorem createOptionChain_rejects_non_option_witness :
    msftEquity.securityType ≠ SecurityType.Option
    ∧ (sampleModel.CreateOptionChain sampleAlg msftEquity
          = Except.error ValueErrorKind.invalidSymbolKind
      ∧ ∀ (m2 : OptionUniverseSelectionModel) (alg2 : Algorithm),
          (∀ x ∈ m2.optionChainSymbolSelector alg2.utcTime,
            x.securityType = SecurityType.Option) →
          (m2.CreateUniverses alg2).error ≠ some ValueErrorKind.invalidSymbolKind) :=
  ⟨by decide, createOptionChain_rejects_non_option sampleModel sampleAlg msftEquity
    (by decide)⟩

end OptionUniverseSelection
